import Mathlib

/-!
Verification of the aionyphe request/response engine against its design notes.

The definitions below are a shallow embedding of `aionyphe/client.py` and
`aionyphe/helper.py`:

* JSON values produced by `response.json()` / `json.loads` are modelled by
  `PyJson`; Python exception classes relevant to the code by `PyErr`.
* `_get_error_text` and `_handle_resp` (client.py) become `getErrorText` and
  `handleResp`.
* `_parse_json_resp` and `_parse_ndjson_resp` (client.py) become
  `parseJsonResp` and `parseNdjson`.
* `OnypheAPIClientRateLimiting.semaphores` (client.py) becomes `semaphores`.
* `OnypheAPIClient.simple_best` validation (client.py) becomes `simpleBest`.
* `iter_pages` (helper.py) becomes `iterPages`.
-/

/-- Model of a Python value decoded from JSON (`response.json()` / `json.loads`).
Objects keep their key/value pairs in order; `json.loads` never produces
duplicate keys in a dict, so lookups below take the first match. -/
inductive PyJson where
  | null
  | bool (b : Bool)
  | int (n : Int)
  | str (s : String)
  | arr (xs : List PyJson)
  | obj (kvs : List (String × PyJson))

/-- A Python dict decoded from a JSON object: ordered key/value pairs. -/
abbrev PyDict := List (String × PyJson)

/-- Python exception classes that the embedded code raises or catches. -/
inductive PyErr where
  | keyError
  | typeError
  | jsonDecodeError
  | contentTypeError
  | clientResponseError
  | valueError
deriving DecidableEq

/-- Dict lookup (`d[key]` success case): first binding for `key`, if any. -/
def pyGet : PyDict → String → Option PyJson
  | [], _ => none
  | (k, v) :: rest, key => if k = key then some v else pyGet rest key

/-- Python subscript `v[key]` with a string key: on a dict it returns the value
or raises `KeyError`; on any non-dict value (list, str, int, bool, None) it
raises `TypeError`. -/
def pySubscript (v : PyJson) (key : String) : Except PyErr PyJson :=
  match v with
  | .obj kvs =>
    match pyGet kvs key with
    | some x => .ok x
    | none => .error .keyError
  | _ => .error .typeError

/-- The exception classes caught by `_get_error_text`'s `except` clause:
`(ClientResponseError, ContentTypeError, JSONDecodeError, KeyError)`.
`ContentTypeError` subclasses `ClientResponseError`; `TypeError` is not caught. -/
def caughtByGetErrorText : PyErr → Bool
  | .clientResponseError => true
  | .contentTypeError => true
  | .jsonDecodeError => true
  | .keyError => true
  | _ => false

/-- `_get_error_text(resp)` (client.py): try `body = await resp.json()` and
return `body['text'], body['error']`; on a caught exception substitute
`("error text is missing", -1)`. The `body` argument is the outcome of
`resp.json()` (decoded value, or the exception it raised). -/
def getErrorText (body : Except PyErr PyJson) : Except PyErr (PyJson × PyJson) :=
  let attempt : Except PyErr (PyJson × PyJson) :=
    match body with
    | .error e => .error e
    | .ok v =>
      match pySubscript v "text" with
      | .error e => .error e
      | .ok t =>
        match pySubscript v "error" with
        | .error e => .error e
        | .ok c => .ok (t, c)
  match attempt with
  | .ok tc => .ok tc
  | .error e =>
    if caughtByGetErrorText e then .ok (.str "error text is missing", .int (-1))
    else .error e

/-- Outcome of `_handle_resp` (client.py). Each error constructor stands for the
corresponding `_api_error` raise site (which logs its diagnostic arguments at
critical level and raises `OnypheAPIError`):
`rateLimited` = "rate limiting triggered!", `badRequest text code` =
"server refused to process your request: %s (err=%d)" with those arguments,
`unexpectedStatus` = "unexpected response from onyphe api". `pyError` is an
ordinary Python exception escaping the handler (it catches only
`ClientProxyConnectionError`, which no claim concerns, so that clause is not
modelled). -/
inductive RespOutcome where
  | rateLimited
  | badRequest (text code : PyJson)
  | unexpectedStatus (status : Int)
  | decoded (results : List (Option PyDict × PyJson))
  | pyError (e : PyErr)

/-- `_handle_resp(response, parse_resp)` (client.py): check `429`, then `400`
(reading the body through `_get_error_text`), then any status `>= 300`; on
success delegate to the parser. `body` is the outcome of reading the response
body as JSON; `parsed` is the outcome of the selected `parse_resp` on the
response. -/
def handleResp (status : Int) (body : Except PyErr PyJson)
    (parsed : Except PyErr (List (Option PyDict × PyJson))) : RespOutcome :=
  if status = 429 then .rateLimited
  else if status = 400 then
    match getErrorText body with
    | .ok (t, c) => .badRequest t c
    | .error e => .pyError e
  else if 300 ≤ status then .unexpectedStatus status
  else
    match parsed with
    | .ok rs => .decoded rs
    | .error e => .pyError e

/-- Keys of a Python dict in insertion order (first occurrence wins). -/
def pyDistinctKeys : List (String × PyJson) → List String
  | [] => []
  | (k, _) :: rest => k :: (pyDistinctKeys rest).filter (fun k2 => k2 != k)

/-- Python `for x in v`: a list yields its elements, a str yields its
one-character strings, a dict yields its keys; other values raise `TypeError`. -/
def pyIter : PyJson → Except PyErr (List PyJson)
  | .arr xs => .ok xs
  | .str s => .ok (s.toList.map (fun ch => .str (String.mk [ch])))
  | .obj kvs => .ok ((pyDistinctKeys kvs).map .str)
  | _ => .error .typeError

/-- `_parse_json_resp(response)` (client.py): `data = await response.json()`;
`meta = {}; meta.update(data); del meta['results']`; then
`for result in data['results']: yield meta, result`. All failure points
(json decoding, the `del` on a missing key, iterating `data['results']`)
occur before the first yield, so the outcome is a whole list or an error.
A non-dict JSON body always raises before the first yield (`meta.update` or
the subsequent subscripts fail; the exact exception class varies with the
body's shape and no claim distinguishes them), modelled as `typeError`. -/
def parseJsonResp (body : Except PyErr PyJson) :
    Except PyErr (List (Option PyDict × PyJson)) :=
  match body with
  | .error e => .error e
  | .ok (.obj kvs) =>
    match pyGet kvs "results" with
    | none => .error .keyError
    | some rv =>
      let meta := kvs.filter (fun p => p.fst != "results")
      match pyIter rv with
      | .error e => .error e
      | .ok rs => .ok (rs.map (fun r => (some meta, r)))
  | .ok _ => .error .typeError

/-- `_parse_ndjson_resp(response)` (client.py): loop
`line = await response.content.readline(); if not line: break;
yield None, loads(line)`. The input list is the successive results of
`readline` (an empty string signals end-of-stream; an exhausted list behaves
the same, as `readline` then keeps returning `b''`); `loads` is `json.loads`.
Being a generator, records already yielded stay delivered when a later line
fails, so the result is the yielded prefix paired with the exception, if any. -/
def parseNdjson (loads : String → Except PyErr PyJson) :
    List String → List (Option PyDict × PyJson) × Option PyErr
  | [] => ([], none)
  | line :: rest =>
    if line = "" then ([], none)
    else
      match loads line with
      | .error e => ([], some e)
      | .ok v =>
        let tail := parseNdjson loads rest
        ((none, v) :: tail.fst, tail.snd)

/-- `OnypheFeature` (enum.py): one constructor per Onyphe feature, in
definition order (which is the iteration order of `for feature in OnypheFeature`). -/
inductive OnypheFeature where
  | user
  | summary
  | simple
  | datamd5
  | resolver_fwd
  | resolver_rev
  | simple_best
  | search
  | alert_list
  | alert_add
  | alert_del
  | bulk_summary
  | bulk_simple_ip
  | bulk_simple_best_ip
  | bulk_discovery_asset
  | export
deriving DecidableEq

/-- Iteration order of `for feature in OnypheFeature` (enum definition order). -/
def allFeatures : List OnypheFeature :=
  [.user, .summary, .simple, .datamd5, .resolver_fwd, .resolver_rev,
   .simple_best, .search, .alert_list, .alert_add, .alert_del, .bulk_summary,
   .bulk_simple_ip, .bulk_simple_best_ip, .bulk_discovery_asset, .export]

/-- `DEFAULT_RATE_LIMITS` (client.py): every feature maps to `None` except
`EXPORT`, which maps to `1`. -/
def DEFAULT_RATE_LIMITS : OnypheFeature → Option Int
  | .user => none
  | .summary => none
  | .simple => none
  | .datamd5 => none
  | .resolver_fwd => none
  | .resolver_rev => none
  | .simple_best => none
  | .search => none
  | .alert_list => none
  | .alert_add => none
  | .alert_del => none
  | .bulk_summary => none
  | .bulk_simple_ip => none
  | .bulk_simple_best_ip => none
  | .bulk_discovery_asset => none
  | .export => some 1

/-- The admission-control primitive stored per feature:
`stub` models `_SemaphoreStub` (always-available pass-through),
`semaphore n` models `asyncio.Semaphore(n)` (at most `n` concurrent holders). -/
inductive Gate where
  | stub
  | semaphore (n : Int)
deriving DecidableEq

/-- Gate chosen for one feature inside the loop of
`OnypheAPIClientRateLimiting.semaphores` (client.py): when rate limiting is
disabled every feature gets the stub; otherwise the limit is looked up in
`DEFAULT_RATE_LIMITS` updated with the caller's overrides (`overrides f = some v`
models an override entry for `f`), and `None` selects the stub while a value
`n` selects `Semaphore(n)`. -/
def gateFor (enabled : Bool) (overrides : OnypheFeature → Option Int)
    (f : OnypheFeature) : Gate :=
  match enabled with
  | false => .stub
  | true =>
    match (match overrides f with | some v => some v | none => DEFAULT_RATE_LIMITS f) with
    | none => .stub
    | some n => .semaphore n

/-- `OnypheAPIClientRateLimiting.semaphores` (client.py): the dict built by
`for feature in OnypheFeature`, as an ordered list of (feature, gate) entries. -/
def semaphores (enabled : Bool) (overrides : OnypheFeature → Option Int) :
    List (OnypheFeature × Gate) :=
  allFeatures.map (fun f => (f, gateFor enabled overrides f))

/-- `OnypheCategory` (enum.py). -/
inductive OnypheCategory where
  | ctl
  | whois
  | geoloc
  | inetnum
  | sniffer
  | synscan
  | topsite
  | datascan
  | datashot
  | pastries
  | resolver
  | vulnscan
  | onionscan
  | onionshot
  | threatlist
deriving DecidableEq

/-- The `value` string of each `OnypheCategory` member (enum.py). -/
def categoryValue : OnypheCategory → String
  | .ctl => "ctl"
  | .whois => "whois"
  | .geoloc => "geoloc"
  | .inetnum => "inetnum"
  | .sniffer => "sniffer"
  | .synscan => "synscan"
  | .topsite => "topsite"
  | .datascan => "datascan"
  | .datashot => "datashot"
  | .pastries => "pastries"
  | .resolver => "resolver"
  | .vulnscan => "vulnscan"
  | .onionscan => "onionscan"
  | .onionshot => "onionshot"
  | .threatlist => "threatlist"

/-- `BEST_CATEGORIES` (client.py): the allow-list for best-match lookups. -/
def BEST_CATEGORIES : List OnypheCategory :=
  [.whois, .geoloc, .inetnum, .threatlist]

/-- Outcome of calling `OnypheAPIClient.simple_best` (client.py) up to the
point where it either raises or commits to a request: `valueError` models the
`raise ValueError(...)` taken before any semaphore is acquired and before any
HTTP request is built; `request f url page` records the semaphore key acquired
(`OnypheFeature.SIMPLE_BEST`) and the url and page handed to `__get`. -/
inductive SimpleBestOutcome where
  | valueError
  | request (feature : OnypheFeature) (url : String) (page : Int)
deriving DecidableEq

/-- `OnypheAPIClient.simple_best(category, ipaddr, page)` (client.py):
`if category not in BEST_CATEGORIES: raise ValueError(...)`, then acquire the
`SIMPLE_BEST` semaphore and `__get` the url `simple/{category.value}/best/{ipaddr}`. -/
def simpleBest (category : OnypheCategory) (ipaddr : String) (page : Int) :
    SimpleBestOutcome :=
  if category ∈ BEST_CATEGORIES then
    .request .simple_best ("simple/" ++ categoryValue category ++ "/best/" ++ ipaddr) page
  else .valueError

/-- Result of running `iter_pages` (helper.py): `ok visited lastFinal` is
normal termination having requested the pages in `visited` (in order) with the
local variable `last` ending at `lastFinal`; `typeErr visited` is the
`TypeError` raised by `current >= last` when `last` is still `None`;
`fuelOut` marks exhaustion of the observation fuel (the loop itself is
unbounded). -/
inductive IterPagesResult where
  | ok (visited : List Int) (lastFinal : Int)
  | typeErr (visited : List Int)
  | fuelOut (visited : List Int)
deriving DecidableEq

/-- One `last` update of `iter_pages` (helper.py):
`if last: last = min(last, meta.get('max_page', 1)) else: last = meta.get('max_page', 1)`.
Python truthiness makes both `None` and `0` take the `else` branch. `m` is the
already-defaulted `meta.get('max_page', 1)` value. -/
def updateLast (last : Option Int) (m : Int) : Option Int :=
  match last with
  | some l => if l ≠ 0 then some (min l m) else some m
  | none => some m

/-- The run of the inner `async for` of `iter_pages` over one page's records:
each record's metadata is represented by its `max_page` field (`none` when the
field is absent; `meta.get('max_page', 1)` defaults it to `1`), the only field
the walker reads. -/
def foldPage (last : Option Int) (recs : List (Option Int)) : Option Int :=
  recs.foldl (fun l r => updateLast l (r.getD 1)) last

/-- The `while True` loop of `iter_pages` (helper.py). `pages p` is the stream
of records served for page `p` (each record abstracted to its metadata's
`max_page` field); `acc` accumulates requested pages in reverse. After a page's
stream is exhausted the loop breaks if `current >= last` — a `TypeError` when
`last` is still `None`. -/
def iterPagesAux (pages : Int → List (Option Int)) :
    Nat → Int → Option Int → List Int → IterPagesResult
  | 0, _, _, acc => .fuelOut acc.reverse
  | fuel + 1, current, last, acc =>
    match foldPage last (pages current) with
    | none => .typeErr (acc.reverse ++ [current])
    | some l =>
      if l ≤ current then .ok (acc.reverse ++ [current]) l
      else iterPagesAux pages fuel (current + 1) (some l) (current :: acc)

/-- `iter_pages(afunc, args, first, last)` (helper.py), starting at page
`first` with caller bound `last`. -/
def iterPages (pages : Int → List (Option Int)) (fuel : Nat) (first : Int)
    (last : Option Int) : IterPagesResult :=
  iterPagesAux pages fuel first last []

/-- Specification-side running minimum: fold plain `min` over a list of
observed `max_page` values, starting from an optional caller bound. -/
def minFold (b : Option Int) (ms : List Int) : Option Int :=
  ms.foldl (fun a m => some (match a with | none => m | some l => min l m)) b

/-- The `max_page` values observed while iterating one page's records,
after the `meta.get('max_page', 1)` defaulting. -/
def pageMins (recs : List (Option Int)) : List Int :=
  recs.map (fun r => r.getD 1)

/-- The consecutive page numbers `first, first+1, ..., first+n-1`. -/
def pagesRange (first : Int) : Nat → List Int
  | 0 => []
  | n + 1 => first :: pagesRange (first + 1) n

/-- The minimum of the caller bound (if any) and every `max_page` value
observed on pages `first .. first+n-1`. -/
def runBound (pages : Int → List (Option Int)) (first : Int) (b : Option Int)
    (n : Nat) : Option Int :=
  minFold b ((pagesRange first n).flatMap (fun p => pageMins (pages p)))

/-- The inconsistent-server-hint scenario of the design notes: page 1 reports
`max_page = 3`, every later page reports `max_page = 2`, one record per page. -/
def scenarioPages : Int → List (Option Int) :=
  fun p => if p ≤ 1 then [some 3] else [some 2]

/-- A server whose page 1 reports `max_page = 3` and whose later pages report
`max_page = 1`, one record per page. -/
def cexPages : Int → List (Option Int) :=
  fun p => if p ≤ 1 then [some 3] else [some 1]

theorem minFold_append (b : Option Int) (xs ys : List Int) :
    minFold b (xs ++ ys) = minFold (minFold b xs) ys := by
  simp [minFold, List.foldl_append]

theorem minFold_some_of_some (ms : List Int) :
    ∀ l : Int, ∃ x, minFold (some l) ms = some x := by
  induction ms with
  | nil => intro l; exact ⟨l, rfl⟩
  | cons m t ih => intro l; simpa [minFold] using ih (min l m)

theorem minFold_some_of_ne_nil (b : Option Int) (ms : List Int) (h : ms ≠ []) :
    ∃ x, minFold b ms = some x := by
  match ms, h with
  | m :: t, _ =>
    cases b with
    | none => simpa [minFold] using minFold_some_of_some t m
    | some l => simpa [minFold] using minFold_some_of_some t (min l m)

theorem minFold_le (ms : List Int) :
    ∀ l x : Int, minFold (some l) ms = some x → x ≤ l := by
  induction ms with
  | nil =>
    intro l x h
    simp only [minFold, List.foldl_nil, Option.some.injEq] at h
    omega
  | cons m t ih =>
    intro l x h
    simp only [minFold, List.foldl_cons] at h
    have := ih (min l m) x h
    omega

theorem minFold_pos (ms : List Int) :
    ∀ b : Option Int, (∀ y, b = some y → 1 ≤ y) → (∀ m ∈ ms, 1 ≤ m) →
      ∀ x, minFold b ms = some x → 1 ≤ x := by
  induction ms with
  | nil =>
    intro b hb _ x h
    exact hb x h
  | cons m t ih =>
    intro b hb hm x h
    simp only [minFold, List.foldl_cons] at h
    have hm1 : 1 ≤ m := hm m (List.mem_cons_self m t)
    refine ih _ ?_ (fun m' hm' => hm m' (List.mem_cons_of_mem _ hm')) x h
    intro y hy
    cases b with
    | none => simp only [Option.some.injEq] at hy; omega
    | some l =>
      have hl : 1 ≤ l := hb l rfl
      simp only [Option.some.injEq] at hy
      omega

theorem foldPage_eq_minFold (recs : List (Option Int)) :
    ∀ b : Option Int, (∀ y, b = some y → 1 ≤ y) →
      (∀ m ∈ pageMins recs, 1 ≤ m) →
      foldPage b recs = minFold b (pageMins recs) := by
  induction recs with
  | nil => intro b _ _; rfl
  | cons r t ih =>
    intro b hb hm
    have hm1 : 1 ≤ r.getD 1 := hm _ (by simp [pageMins])
    have htail : ∀ m ∈ pageMins t, 1 ≤ m := by
      intro m hmem
      exact hm m (by simp [pageMins] at hmem ⊢; right; exact hmem)
    cases b with
    | none =>
      have h1 : foldPage none (r :: t) = foldPage (some (r.getD 1)) t := rfl
      have h2 : minFold none (pageMins (r :: t))
          = minFold (some (r.getD 1)) (pageMins t) := rfl
      rw [h1, h2]
      refine ih _ ?_ htail
      intro y hy
      simp only [Option.some.injEq] at hy
      omega
    | some l =>
      have hl : 1 ≤ l := hb l rfl
      have hl0 : l ≠ 0 := by omega
      have h1 : foldPage (some l) (r :: t)
          = foldPage (some (min l (r.getD 1))) t := by
        simp [foldPage, updateLast, hl0]
      have h2 : minFold (some l) (pageMins (r :: t))
          = minFold (some (min l (r.getD 1))) (pageMins t) := rfl
      rw [h1, h2]
      refine ih _ ?_ htail
      intro y hy
      simp only [Option.some.injEq] at hy
      omega

theorem pagesRange_add (first : Int) (n m : Nat) :
    pagesRange first (n + m) = pagesRange first n ++ pagesRange (first + n) m := by
  induction n generalizing first with
  | zero => simp [pagesRange]
  | succ k ih =>
    have harith : (first + 1) + (k : Int) = first + ((k : Nat) + 1 : Nat) := by
      push_cast
      ring
    calc pagesRange first (k + 1 + m)
        = pagesRange first (k + m + 1) := by rw [Nat.add_right_comm]
      _ = first :: pagesRange (first + 1) (k + m) := rfl
      _ = first :: (pagesRange (first + 1) k ++ pagesRange (first + 1 + k) m) := by
          rw [ih]
      _ = pagesRange first (k + 1) ++ pagesRange (first + (k + 1 : Nat)) m := by
          rw [harith]
          rfl

theorem runBound_one (pages : Int → List (Option Int)) (first : Int)
    (b : Option Int) :
    runBound pages first b 1 = minFold b (pageMins (pages first)) := by
  simp [runBound, pagesRange]

theorem runBound_succ (pages : Int → List (Option Int)) (first : Int)
    (b : Option Int) (n : Nat) :
    runBound pages first b (n + 1)
      = runBound pages (first + 1) (minFold b (pageMins (pages first))) n := by
  have h : pagesRange first (n + 1) = first :: pagesRange (first + 1) n := rfl
  simp only [runBound, h, List.flatMap_cons, minFold_append]

theorem runBound_mono (pages : Int → List (Option Int)) (first : Int)
    (b : Option Int) (k1 k2 : Nat) (x y : Int) (hk : k1 ≤ k2)
    (h1 : runBound pages first b k1 = some x)
    (h2 : runBound pages first b k2 = some y) : y ≤ x := by
  obtain ⟨d, rfl⟩ := Nat.exists_eq_add_of_le hk
  rw [runBound, pagesRange_add, List.flatMap_append, minFold_append] at h2
  rw [runBound] at h1
  rw [h1] at h2
  exact minFold_le _ _ _ h2

theorem pageMins_ne_nil (pages : Int → List (Option Int))
    (hrec : ∀ p, pages p ≠ []) (p : Int) : pageMins (pages p) ≠ [] := by
  intro h
  exact hrec p (by simpa [pageMins] using h)

theorem iterPagesAux_ok
    (pages : Int → List (Option Int))
    (hrec : ∀ p, pages p ≠ [])
    (hpos : ∀ p, ∀ m ∈ pageMins (pages p), 1 ≤ m) :
    ∀ (fuel : Nat) (current : Int) (b : Option Int) (acc : List Int),
      (∀ x, b = some x → 1 ≤ x) →
      (∀ x, minFold b (pageMins (pages current)) = some x →
        (x - current).toNat < fuel) →
      ∃ (n : Nat) (L : Int),
        iterPagesAux pages fuel current b acc
          = .ok (acc.reverse ++ pagesRange current n) L ∧
        1 ≤ n ∧
        runBound pages current b n = some L ∧
        L ≤ current + (n : Int) - 1 ∧
        (∀ k : Nat, k + 1 < n → ∀ x,
          runBound pages current b (k + 1) = some x → current + (k : Int) < x) := by
  intro fuel
  induction fuel with
  | zero =>
    intro current b acc hb hfuel
    obtain ⟨x, hx⟩ := minFold_some_of_ne_nil b (pageMins (pages current))
      (pageMins_ne_nil pages hrec current)
    exact absurd (hfuel x hx) (Nat.not_lt_zero _)
  | succ fuel ih =>
    intro current b acc hb hfuel
    have hfold : foldPage b (pages current) = minFold b (pageMins (pages current)) :=
      foldPage_eq_minFold _ b hb (hpos current)
    obtain ⟨l1, hl1⟩ := minFold_some_of_ne_nil b (pageMins (pages current))
      (pageMins_ne_nil pages hrec current)
    have hl1pos : 1 ≤ l1 :=
      minFold_pos (pageMins (pages current)) b hb (hpos current) l1 hl1
    have hstep : iterPagesAux pages (fuel + 1) current b acc
        = if l1 ≤ current then .ok (acc.reverse ++ [current]) l1
          else iterPagesAux pages fuel (current + 1) (some l1) (current :: acc) := by
      simp [iterPagesAux, hfold, hl1]
    by_cases hstop : l1 ≤ current
    · refine ⟨1, l1, ?_, le_refl 1, ?_, ?_, ?_⟩
      · rw [hstep, if_pos hstop]
        rfl
      · rw [runBound_one]
        exact hl1
      · push_cast
        omega
      · intro k hk
        omega
    · push_neg at hstop
      have hb' : ∀ x, some l1 = some x → 1 ≤ x := by
        intro x hx
        injection hx with h
        omega
      have hfuel' : ∀ x, minFold (some l1) (pageMins (pages (current + 1))) = some x →
          (x - (current + 1)).toNat < fuel := by
        intro x hx
        have hxle : x ≤ l1 := minFold_le _ l1 x hx
        have h1 : (l1 - current).toNat < fuel + 1 := hfuel l1 hl1
        omega
      obtain ⟨n', L, heq, hn', hrb, hLle, hks⟩ :=
        ih (current + 1) (some l1) (current :: acc) hb' hfuel'
      refine ⟨n' + 1, L, ?_, by omega, ?_, ?_, ?_⟩
      · rw [hstep, if_neg (by omega), heq]
        congr 1
        rw [List.reverse_cons, List.append_assoc]
        rfl
      · rw [runBound_succ, hl1]
        exact hrb
      · push_cast
        omega
      · intro k hk x hx
        cases k with
        | zero =>
          rw [runBound_one, hl1] at hx
          injection hx with h
          push_cast
          omega
        | succ k' =>
          rw [runBound_succ, hl1] at hx
          have := hks k' (by omega) x hx
          push_cast at this ⊢
          omega

/-- Claim C1 (counterexample): the page walker does not always visit exactly
pages `first..last` with `last = min of all observed max_page values`. With
`first = 1`, no caller bound, page 1 reporting `max_page = 3` and page 2
reporting `max_page = 1`, the min of all observed values is `1` (third
conjunct), so the claim requires the walker to visit exactly pages `1..1`
(fourth conjunct computes that range) — but the walker requests pages 1 and 2
(first conjunct), one page past the smallest observed bound. -/
theorem iter_pages_min_rule_counterexample :
    iterPages cexPages 5 1 none = .ok [1, 2] 1 ∧
    runBound cexPages 1 none 2 = some 1 ∧
    pagesRange 1 1 = [1] ∧
    ([1, 2] : List Int) ≠ [1] := by
  refine ⟨rfl, rfl, rfl, ?_⟩
  decide

/-- Claim C1 (amended): assuming every fetched page streams at least one
record, every observed `max_page` value is positive, the caller bound (if any)
is positive, and enough fuel to observe termination, the walker requests
exactly the consecutive pages `first, first+1, ..., first+n-1`, each once, in
increasing order; its final bound `L` equals the min of the caller bound (if
any) and all `max_page` values observed on the visited pages; it stops at the
first page that reaches the running bound (the stopping page is `>= L`, and
every earlier page is strictly below the bound known at that point); the
running bound, once set, never grows; and in the inconsistent-server-hint
scenario (page 1 reports `max_page = 3`, page 2 reports `max_page = 2`) the
walker visits exactly pages 1 and 2, stopping with bound 2 and never
requesting page 3. -/
theorem iter_pages_amended
    (pages : Int → List (Option Int)) (first : Int) (b : Option Int) (fuel : Nat)
    (hb : ∀ x, b = some x → 1 ≤ x)
    (hrec : ∀ p, pages p ≠ [])
    (hpos : ∀ p, ∀ m ∈ pageMins (pages p), 1 ≤ m)
    (hfuel : ∀ x, runBound pages first b 1 = some x → (x - first).toNat < fuel) :
    (∃ (n : Nat) (L : Int),
      iterPages pages fuel first b = .ok (pagesRange first n) L ∧
      1 ≤ n ∧
      runBound pages first b n = some L ∧
      L ≤ first + (n : Int) - 1 ∧
      (∀ k : Nat, k + 1 < n → ∀ x,
        runBound pages first b (k + 1) = some x → first + (k : Int) < x) ∧
      (∀ (k1 k2 : Nat) (x y : Int), k1 ≤ k2 →
        runBound pages first b k1 = some x →
        runBound pages first b k2 = some y → y ≤ x)) ∧
    iterPages scenarioPages 5 1 none = .ok [1, 2] 2 := by
  constructor
  · have hfuel' : ∀ x, minFold b (pageMins (pages first)) = some x →
        (x - first).toNat < fuel := by
      intro x hx
      exact hfuel x (by rw [runBound_one]; exact hx)
    obtain ⟨n, L, heq, hn, hrb, hLle, hks⟩ :=
      iterPagesAux_ok pages hrec hpos fuel first b [] hb hfuel'
    exact ⟨n, L, by simpa [iterPages] using heq, hn, hrb, hLle, hks,
      fun k1 k2 x y hk h1 h2 => runBound_mono pages first b k1 k2 x y hk h1 h2⟩
  · rfl

/-- Witness for `iter_pages_amended` at the scenario input: page 1 reports
`max_page = 3`, later pages report `max_page = 2`, starting at page 1 with no
caller bound. -/
theorem iter_pages_amended_witness :
    (∃ (n : Nat) (L : Int),
      iterPages scenarioPages 5 1 none = .ok (pagesRange 1 n) L ∧
      1 ≤ n ∧
      runBound scenarioPages 1 none n = some L ∧
      L ≤ 1 + (n : Int) - 1 ∧
      (∀ k : Nat, k + 1 < n → ∀ x,
        runBound scenarioPages 1 none (k + 1) = some x → 1 + (k : Int) < x) ∧
      (∀ (k1 k2 : Nat) (x y : Int), k1 ≤ k2 →
        runBound scenarioPages 1 none k1 = some x →
        runBound scenarioPages 1 none k2 = some y → y ≤ x)) ∧
    iterPages scenarioPages 5 1 none = .ok [1, 2] 2 :=
  iter_pages_amended scenarioPages 1 none 5
    (fun _ h => Option.noConfusion h)
    (by
      intro p
      by_cases hp : p ≤ 1 <;> simp [scenarioPages, hp])
    (by
      intro p m hm
      by_cases hp : p ≤ 1 <;> simp [scenarioPages, pageMins, hp] at hm <;> omega)
    (by
      intro x hx
      have h3 : runBound scenarioPages 1 none 1 = some 3 := rfl
      rw [h3] at hx
      injection hx with h
      omega)

/-- Claim C10: when the caller supplies no upper bound and the first fetched
page yields zero records, `iter_pages` does not terminate with an empty
result: `last` is never assigned, and the `current >= last` comparison against
`None` raises a `TypeError` after the first page. -/
theorem iter_pages_empty_first_page_type_error
    (pages : Int → List (Option Int)) (first : Int) (fuel : Nat)
    (hempty : pages first = []) (hfuel : 1 ≤ fuel) :
    iterPages pages fuel first none = .typeErr [first] ∧
    (∀ visited L, iterPages pages fuel first none ≠ .ok visited L) := by
  obtain ⟨fuel', rfl⟩ : ∃ f, fuel = f + 1 := ⟨fuel - 1, by omega⟩
  have h : iterPages pages (fuel' + 1) first none = .typeErr [first] := by
    simp [iterPages, iterPagesAux, foldPage, hempty]
  refine ⟨h, ?_⟩
  intro visited L hok
  rw [h] at hok
  exact IterPagesResult.noConfusion hok

/-- Witness for `iter_pages_empty_first_page_type_error`: a server whose every
page is empty, starting at page 1 with no caller bound. -/
theorem iter_pages_empty_first_page_type_error_witness :
    iterPages (fun _ => []) 3 1 none = .typeErr [1] ∧
    (∀ visited L, iterPages (fun _ => []) 3 1 none ≠ .ok visited L) :=
  iter_pages_empty_first_page_type_error (fun _ => []) 1 3 rfl (by omega)

theorem handleResp_400 (body : Except PyErr PyJson)
    (parsed : Except PyErr (List (Option PyDict × PyJson))) :
    handleResp 400 body parsed
      = match getErrorText body with
        | .ok (t, c) => .badRequest t c
        | .error e => .pyError e := by
  norm_num [handleResp]

/-- Claim C2 (counterexample): a 400 response whose body is valid JSON but not
an object — here the JSON array `[]` — does not raise the substituted
BadRequest: `body['text']` raises `TypeError`, which is not in
`_get_error_text`'s caught exception tuple, so it escapes and no BadRequest
with text "error text is missing" and code -1 is produced. -/
theorem handle_400_counterexample :
    handleResp 400 (.ok (.arr [])) (.ok []) = .pyError .typeError ∧
    handleResp 400 (.ok (.arr [])) (.ok [])
      ≠ .badRequest (.str "error text is missing") (.int (-1)) := by
  refine ⟨rfl, ?_⟩
  intro h
  have h' : RespOutcome.pyError .typeError
      = .badRequest (.str "error text is missing") (.int (-1)) := h
  exact RespOutcome.noConfusion h'

/-- Claim C2 (amended): for status 400 the handler parses the body as JSON and
reads the `text` and `error` fields; when both are present in a JSON object it
raises BadRequest with those values; on wrong content type, malformed JSON, or
a JSON object missing either field it substitutes text "error text is missing"
and code -1 and raises BadRequest with them; but when the body is valid JSON
that is not an object (e.g. an array) the field access raises an uncaught
`TypeError` instead of BadRequest. -/
theorem handle_400_amended (kvs : PyDict) (e : PyErr)
    (parsed : Except PyErr (List (Option PyDict × PyJson))) :
    (∀ t c, pyGet kvs "text" = some t → pyGet kvs "error" = some c →
      handleResp 400 (.ok (.obj kvs)) parsed = .badRequest t c) ∧
    ((pyGet kvs "text" = none ∨ pyGet kvs "error" = none) →
      handleResp 400 (.ok (.obj kvs)) parsed
        = .badRequest (.str "error text is missing") (.int (-1))) ∧
    (caughtByGetErrorText e = true →
      handleResp 400 (.error e) parsed
        = .badRequest (.str "error text is missing") (.int (-1))) ∧
    (∀ xs, handleResp 400 (.ok (.arr xs)) parsed = .pyError .typeError) := by
  refine ⟨?_, ?_, ?_, ?_⟩
  · intro t c ht hc
    rw [handleResp_400]
    simp [getErrorText, pySubscript, ht, hc]
  · intro h
    rw [handleResp_400]
    rcases h with h | h
    · simp [getErrorText, pySubscript, h, caughtByGetErrorText]
    · cases htext : pyGet kvs "text" with
      | none => simp [getErrorText, pySubscript, htext, caughtByGetErrorText]
      | some t => simp [getErrorText, pySubscript, htext, h, caughtByGetErrorText]
  · intro hc
    rw [handleResp_400]
    simp [getErrorText, hc]
  · intro xs
    rw [handleResp_400]
    rfl

/-- Witness for `handle_400_amended`: the two bodies named by the design notes,
`{"text": "bad field", "error": 12}` and a malformed (non-JSON) body. -/
theorem handle_400_amended_witness :
    handleResp 400 (.ok (.obj [("text", .str "bad field"), ("error", .int 12)])) (.ok [])
      = .badRequest (.str "bad field") (.int 12) ∧
    handleResp 400 (.error .jsonDecodeError) (.ok [])
      = .badRequest (.str "error text is missing") (.int (-1)) :=
  ⟨(handle_400_amended [("text", .str "bad field"), ("error", .int 12)]
      .jsonDecodeError (.ok [])).1 (.str "bad field") (.int 12) rfl rfl,
   (handle_400_amended [("text", .str "bad field"), ("error", .int 12)]
      .jsonDecodeError (.ok [])).2.2.1 rfl⟩

/-- Claim C3: a 429 response always yields the RateLimited error, whatever the
body reads or parses to (so the body is never consulted), and in particular it
is classified before the 400 and the generic `>= 300` checks. -/
theorem handle_resp_429 (body : Except PyErr PyJson)
    (parsed : Except PyErr (List (Option PyDict × PyJson))) :
    handleResp 429 body parsed = .rateLimited := rfl

/-- Claim C4: an enveloped-JSON response whose body is an object with a
`results` list yields one (metadata, record) pair per entry of the list, in
list order, where the metadata is the body minus the `results` key and is the
same value in every pair. -/
theorem parse_json_resp_enveloped (kvs : PyDict) (xs : List PyJson)
    (h : pyGet kvs "results" = some (.arr xs)) :
    parseJsonResp (.ok (.obj kvs))
      = .ok (xs.map (fun r => (some (kvs.filter (fun p => p.fst != "results")), r))) ∧
    ∀ pr ∈ xs.map (fun r => (some (kvs.filter (fun p => p.fst != "results")), r)),
      pr.fst = some (kvs.filter (fun p => p.fst != "results")) := by
  constructor
  · simp [parseJsonResp, h, pyIter]
  · intro pr hpr
    simp only [List.mem_map] at hpr
    obtain ⟨r, _, rfl⟩ := hpr
    rfl

/-- Witness for `parse_json_resp_enveloped`: body
`{"max_page": 3, "results": [1, 2]}`. -/
theorem parse_json_resp_enveloped_witness :
    parseJsonResp (.ok (.obj [("max_page", .int 3), ("results", .arr [.int 1, .int 2])]))
      = .ok [(some [("max_page", .int 3)], .int 1), (some [("max_page", .int 3)], .int 2)] :=
  (parse_json_resp_enveloped
    [("max_page", .int 3), ("results", .arr [.int 1, .int 2])] [.int 1, .int 2] rfl).1

/-- Claim C5: an NDJSON body of k valid lines yields exactly k
(no-metadata, record) pairs in line order, stopping at the end-of-stream empty
read (whether signalled by an empty-string read or stream exhaustion); a
malformed line fails the sequence with the decode error after the pairs already
streamed — no recovery, never a silent truncation. -/
theorem parse_ndjson_spec (loads : String → Except PyErr PyJson)
    (ls : List String) (vs : List PyJson)
    (hv : List.Forall₂ (fun l v => l ≠ "" ∧ loads l = .ok v) ls vs) :
    parseNdjson loads (ls ++ [""]) = (vs.map (fun v => ((none : Option PyDict), v)), none) ∧
    parseNdjson loads ls = (vs.map (fun v => ((none : Option PyDict), v)), none) ∧
    (∀ bad e rest, bad ≠ "" → loads bad = .error e →
      parseNdjson loads (ls ++ bad :: rest)
        = (vs.map (fun v => ((none : Option PyDict), v)), some e)) := by
  induction hv with
  | nil =>
    refine ⟨rfl, rfl, ?_⟩
    intro bad e rest hbad hload
    simp [parseNdjson, hbad, hload]
  | @cons l v ls' vs' hlv _ ih =>
    obtain ⟨hne, hok⟩ := hlv
    obtain ⟨ih1, ih2, ih3⟩ := ih
    refine ⟨?_, ?_, ?_⟩
    · simp [parseNdjson, hne, hok, ih1]
    · simp [parseNdjson, hne, hok, ih2]
    · intro bad e rest hbad hload
      simp [parseNdjson, hne, hok, ih3 bad e rest hbad hload]

/-- Witness for `parse_ndjson_spec`: two valid lines then end-of-stream, and
the same two lines followed by a malformed line. -/
theorem parse_ndjson_spec_witness :
    parseNdjson (fun s => if s = "1" then .ok (.int 1) else .error .jsonDecodeError)
      ["1", "1"] = ([((none : Option PyDict), .int 1), (none, .int 1)], none) ∧
    parseNdjson (fun s => if s = "1" then .ok (.int 1) else .error .jsonDecodeError)
      (["1", "1"] ++ "x" :: []) = ([((none : Option PyDict), .int 1), (none, .int 1)],
        some .jsonDecodeError) :=
  ⟨(parse_ndjson_spec _ ["1", "1"] [.int 1, .int 1]
      (List.Forall₂.cons ⟨by decide, rfl⟩
        (List.Forall₂.cons ⟨by decide, rfl⟩ List.Forall₂.nil))).2.1,
   (parse_ndjson_spec _ ["1", "1"] [.int 1, .int 1]
      (List.Forall₂.cons ⟨by decide, rfl⟩
        (List.Forall₂.cons ⟨by decide, rfl⟩ List.Forall₂.nil))).2.2
     "x" .jsonDecodeError [] (by decide) rfl⟩

/-- Claim C7: the semaphore dict has exactly one entry per feature (its key
list is exactly the feature enumeration, in which each feature occurs once);
with rate limiting enabled and no override every feature gets the
always-available stub except `export`, which gets `Semaphore(1)`; with rate
limiting disabled every feature (including `export`) gets the stub whatever
the overrides. -/
theorem semaphores_spec (enabled : Bool) (overrides : OnypheFeature → Option Int)
    (f : OnypheFeature) :
    ((semaphores enabled overrides).map Prod.fst = allFeatures) ∧
    (allFeatures.count f = 1) ∧
    (f ≠ .export → gateFor true (fun _ => none) f = .stub) ∧
    (gateFor true (fun _ => none) .export = .semaphore 1) ∧
    (gateFor false overrides f = .stub) := by
  refine ⟨?_, ?_, ?_, rfl, rfl⟩
  · rfl
  · cases f <;> decide
  · intro hf
    cases f <;> first | rfl | exact absurd rfl hf

/-- Witness for `semaphores_spec` at the `search` feature with rate limiting
enabled and no overrides. -/
theorem semaphores_spec_witness :
    ((semaphores true (fun _ => none)).map Prod.fst = allFeatures) ∧
    (allFeatures.count OnypheFeature.search = 1) ∧
    (gateFor true (fun _ => none) OnypheFeature.search = .stub) ∧
    (gateFor true (fun _ => none) .export = .semaphore 1) ∧
    (gateFor false (fun _ => none) OnypheFeature.search = .stub) := by
  have h := semaphores_spec true (fun _ => none) OnypheFeature.search
  exact ⟨h.1, h.2.1, h.2.2.1 (by decide), h.2.2.2.1, h.2.2.2.2⟩

/-- Claim C8: an enveloped-JSON response whose body is not valid JSON, or
whose JSON object lacks the `results` field, makes the decoder fail with the
decode-kind error (the `JSONDecodeError` from `response.json()`, resp. the
`KeyError` from `del meta['results']`); the failure propagates through the
response handler as that error — never downgraded to an empty or partial
`.ok` result list. -/
theorem parse_json_resp_decode_failure (kvs : PyDict)
    (h : pyGet kvs "results" = none) :
    parseJsonResp (.ok (.obj kvs)) = .error .keyError ∧
    parseJsonResp (.error .jsonDecodeError) = .error .jsonDecodeError ∧
    (∀ l, parseJsonResp (.ok (.obj kvs)) ≠ .ok l) ∧
    (∀ body, handleResp 200 body (parseJsonResp (.ok (.obj kvs)))
      = .pyError .keyError) ∧
    (∀ body, handleResp 200 body (parseJsonResp (.error .jsonDecodeError))
      = .pyError .jsonDecodeError) := by
  have h1 : parseJsonResp (.ok (.obj kvs)) = .error .keyError := by
    simp [parseJsonResp, h]
  refine ⟨h1, rfl, ?_, ?_, fun body => rfl⟩
  · intro l hl
    rw [h1] at hl
    exact Except.noConfusion hl
  · intro body
    rw [h1]
    rfl

/-- Witness for `parse_json_resp_decode_failure`: body `{"max_page": 1}`
(no `results` field). -/
theorem parse_json_resp_decode_failure_witness :
    parseJsonResp (.ok (.obj [("max_page", .int 1)])) = .error .keyError ∧
    parseJsonResp (.error .jsonDecodeError) = .error .jsonDecodeError :=
  ⟨(parse_json_resp_decode_failure [("max_page", .int 1)] rfl).1,
   (parse_json_resp_decode_failure [("max_page", .int 1)] rfl).2.1⟩

/-- Claim C9: a best-match lookup with a category outside the allow-list
{whois, geoloc, inetnum, threatlist} raises `ValueError` locally, before any
semaphore permit is acquired and before any request is issued (the outcome
carries no feature or url); with a category in the allow-list no such error is
raised and the request for `simple/{category}/best/{ip}` proceeds under the
`SIMPLE_BEST` semaphore. -/
theorem simple_best_validation (c : OnypheCategory) (ip : String) (page : Int) :
    (c ∉ BEST_CATEGORIES → simpleBest c ip page = .valueError) ∧
    (c ∈ BEST_CATEGORIES →
      simpleBest c ip page
        = .request .simple_best ("simple/" ++ categoryValue c ++ "/best/" ++ ip) page) ∧
    (∀ f u p, simpleBest c ip page = .request f u p → c ∈ BEST_CATEGORIES) ∧
    (BEST_CATEGORIES = [.whois, .geoloc, .inetnum, .threatlist]) := by
  by_cases hc : c ∈ BEST_CATEGORIES
  · exact ⟨fun h => absurd hc h, fun _ => by simp [simpleBest, hc],
      fun f u p _ => hc, rfl⟩
  · refine ⟨fun _ => by simp [simpleBest, hc], fun h => absurd h hc, ?_, rfl⟩
    intro f u p heq
    simp [simpleBest, hc] at heq

/-- Witness for `simple_best_validation`: the out-of-allow-list category
`datascan` fails locally; the allow-listed `whois` proceeds. -/
theorem simple_best_validation_witness :
    simpleBest .datascan "1.2.3.4" 1 = .valueError ∧
    simpleBest .whois "1.2.3.4" 1
      = .request .simple_best "simple/whois/best/1.2.3.4" 1 :=
  ⟨(simple_best_validation .datascan "1.2.3.4" 1).1 (by decide),
   (simple_best_validation .whois "1.2.3.4" 1).2.1 (by decide)⟩
